import Mathlib

/-!
Shallow embedding of the service-registry core of the `volt` web framework
(`registry.go`) and of its bundled rate-limit middleware (`middleware.go`),
together with proofs about the embedded operations.

Conventions of the embedding:
* Go maps (`map[string]T`) are association lists `List (String × T)` with
  Go-map insertion semantics (`mapInsert` overwrites an existing key);
  iteration `for k, v := range m` is list iteration.  Where a claim depends
  on map-iteration order this is noted at the theorem.
* Opaque `any` instances, `*http.Client` and `*sql.DB` pointers are `Nat`
  tokens; fresh allocation is an explicit counter threaded through the
  operations, so two distinct allocations yield distinct tokens.
* User-supplied constructor callbacks (`func(client *http.Client) any`,
  `func(db *sql.DB) any`) are first-order `FactorySpec` values with an
  `apply` function, so that states stay decidably comparable.
* Shutdown hooks are data: `Option (Option String)` — `none` means no hook
  was supplied, `some none` a hook that succeeds, `some (some e)` a hook
  that fails with error `e`.  Errors (`error` values) are `String`s;
  `fmt.Errorf` wrapping is string concatenation; an aggregate error carries
  the list of collected failures.
* `time.Duration` values are `Nat` (nanoseconds); `time.Sleep` is recorded
  in an event/effect list instead of actually sleeping.
-/

namespace Volt

/-- Go-map insertion: overwrite the binding of `k` if present, else append. -/
def mapInsert {α : Type} (m : List (String × α)) (k : String) (v : α) :
    List (String × α) :=
  match m with
  | [] => [(k, v)]
  | (k', v') :: rest =>
      if k' = k then (k, v) :: rest else (k', v') :: mapInsert rest k v

theorem lookup_cons {α : Type} (k k₀ : String) (v₀ : α) (rest : List (String × α)) :
    List.lookup k ((k₀, v₀) :: rest) = if k = k₀ then some v₀ else List.lookup k rest := by
  by_cases h : k = k₀
  · simp [List.lookup, h]
  · simp [List.lookup, h, beq_eq_false_iff_ne.mpr h]

theorem lookup_nil {α : Type} (k : String) :
    List.lookup k ([] : List (String × α)) = none := rfl

theorem lookup_mapInsert {α : Type} (m : List (String × α)) (k k' : String) (v : α) :
    (mapInsert m k v).lookup k' = if k' = k then some v else m.lookup k' := by
  induction m with
  | nil => simp [mapInsert, lookup_cons, lookup_nil]
  | cons p rest ih =>
      obtain ⟨k₀, v₀⟩ := p
      by_cases h0 : k₀ = k
      · subst h0
        by_cases h : k' = k₀ <;> simp [mapInsert, lookup_cons, h]
      · by_cases h1 : k' = k₀
        · subst h1
          simp [mapInsert, h0, lookup_cons]
        · simp [mapInsert, h0, lookup_cons, h1, ih]

theorem mem_keys_mapInsert {α : Type} (m : List (String × α)) (k x : String) (v : α)
    (hx : x ∈ (mapInsert m k v).map Prod.fst) : x ∈ m.map Prod.fst ∨ x = k := by
  induction m with
  | nil => simpa [mapInsert] using hx
  | cons p rest ih =>
      obtain ⟨k₀, v₀⟩ := p
      by_cases h0 : k₀ = k
      · subst h0
        rcases (by simpa [mapInsert] using hx) with h1 | h1
        · exact Or.inr h1
        · exact Or.inl (by simp [h1])
      · rcases (by simpa [mapInsert, h0] using hx) with h1 | h1
        · exact Or.inl (by simp [h1])
        · rcases ih (by simpa using h1) with h2 | h2
          · exact Or.inl (by simp [h2])
          · exact Or.inr h2

theorem keys_mapInsert_nodup {α : Type} (m : List (String × α)) (k : String) (v : α)
    (h : (m.map Prod.fst).Nodup) : ((mapInsert m k v).map Prod.fst).Nodup := by
  induction m with
  | nil => simp [mapInsert]
  | cons p rest ih =>
      obtain ⟨k₀, v₀⟩ := p
      simp only [List.map_cons, List.nodup_cons] at h
      by_cases h0 : k₀ = k
      · subst h0
        simpa [mapInsert] using h
      · have hrest := ih h.2
        simp only [mapInsert, if_neg h0, List.map_cons, List.nodup_cons]
        refine ⟨?_, hrest⟩
        intro hmem
        rcases mem_keys_mapInsert rest k k₀ v hmem with h1 | h1
        · exact h.1 h1
        · exact h0 h1

/-! ## Retry transport (`retryRoundTripper`, registry.go) -/

/-- The result of one call of the base transport's `RoundTrip`:
either a response carrying a status code, or a transport-level error. -/
inductive RTResult where
  | resp (status : Int)
  | err (e : String)
deriving DecidableEq, Repr

/-- `retryRoundTripper` configuration (registry.go): base transport,
`maxRetries`, `minWait`, `maxWait`, `retryOn` status list.  The base
transport itself is passed to `roundTrip` as a result stream. -/
structure RetryRoundTripper where
  maxRetries : Nat
  minWait : Nat
  maxWait : Nat
  retryOn : List Int
deriving DecidableEq, Repr

/-- `retryRoundTripper.shouldRetry`: linear scan of `retryOn` for `status`. -/
def shouldRetry (retryOn : List Int) (status : Int) : Bool :=
  match retryOn with
  | [] => false
  | s :: rest => if status == s then true else shouldRetry rest status

/-- The early-return condition of `retryRoundTripper.RoundTrip`'s loop body:
`err == nil && !rt.shouldRetry(resp.StatusCode)`. -/
def retryReturnNow (rt : RetryRoundTripper) : RTResult → Bool
  | RTResult.resp s => ! shouldRetry rt.retryOn s
  | RTResult.err _ => false

/-- The backoff of attempt `attempt`:
`wait := minWait * (1 << attempt); if wait > maxWait { wait = maxWait }`. -/
def retryWait (rt : RetryRoundTripper) (attempt : Nat) : Nat :=
  min (rt.minWait * 2 ^ attempt) rt.maxWait

/-- The loop of `retryRoundTripper.RoundTrip`, unrolled as recursion on the
number of loop iterations still allowed after the current one
(`remaining = maxRetries - attempt`).  `results i` is what the base
transport returns on the `i`-th call (0-based).  Returns the final result,
the number of base-transport calls made, and the sleeps performed. -/
def roundTripFrom (rt : RetryRoundTripper) (results : Nat → RTResult) :
    Nat → Nat → RTResult × Nat × List Nat
  | attempt, 0 => (results attempt, 1, [])
  | attempt, remaining + 1 =>
      let res := results attempt
      if retryReturnNow rt res then
        (res, 1, [])
      else
        let out := roundTripFrom rt results (attempt + 1) remaining
        (out.1, out.2.1 + 1, retryWait rt attempt :: out.2.2)

/-- `retryRoundTripper.RoundTrip`: run the loop from attempt 0 with
`maxRetries` further iterations allowed. -/
def retryRoundTrip (rt : RetryRoundTripper) (results : Nat → RTResult) :
    RTResult × Nat × List Nat :=
  roundTripFrom rt results 0 rt.maxRetries

/-! ## Header transport (`headerRoundTripper`, registry.go) -/

/-- `http.Header`: a map from header key to the list of its values. -/
def Header : Type := List (String × List String)

/-- `http.Header.Get`: first value of the key, or `""` when absent/empty. -/
def headerGet (h : Header) (k : String) : String :=
  match List.lookup k h with
  | some (v :: _) => v
  | _ => ""

/-- `http.Header.Set`: replace all values of the key with the single value. -/
def headerSet (h : Header) (k v : String) : Header :=
  mapInsert h k [v]

/-- `headerRoundTripper.RoundTrip`'s header pass: for each configured
default header `(k, v)`, `if req.Header.Get(k) == "" { req.Header.Set(k, v) }`. -/
def applyDefaultHeaders (defaults : List (String × String)) (h : Header) : Header :=
  defaults.foldl
    (fun acc kv => if headerGet acc kv.1 = "" then headerSet acc kv.1 kv.2 else acc) h

/-! ## Registry data model (registry.go) -/

/-- A user-supplied constructor callback (`func(client *http.Client) any` /
`func(db *sql.DB) any`), kept first-order: it either returns the handed-in
client/pool token itself, tags it, or returns a fixed value. -/
inductive FactorySpec where
  | returnClient
  | tagged (t : Nat)
  | constVal (v : Nat)
deriving DecidableEq, Repr

/-- Run the callback on the client/pool token, producing the instance token. -/
def FactorySpec.apply : FactorySpec → Nat → Nat
  | FactorySpec.returnClient, c => c
  | FactorySpec.tagged t, c => 2 ^ t * (2 * c + 1)
  | FactorySpec.constVal v, _ => v

/-- `HTTPServiceConfig` (registry.go): durations in nanoseconds as `Nat`,
counts as `Int` like Go's `int`, `DefaultHeaders` as an association list. -/
structure HTTPServiceConfig where
  baseURL : String
  timeout : Nat
  maxRetries : Int
  retryWaitMin : Nat
  retryWaitMax : Nat
  retryOnStatus : List Int
  maxIdleConns : Int
  maxIdleConnsPerHost : Int
  idleConnTimeout : Nat
  defaultHeaders : List (String × String)
deriving DecidableEq, Repr

/-- `DatabaseConfig` (registry.go). -/
structure DatabaseConfig where
  driver : String
  dsn : String
  maxOpenConns : Int
  maxIdleConns : Int
  connMaxLifetime : Nat
  connMaxIdleTime : Nat
deriving DecidableEq, Repr

/-- `serviceEntry`: a plain registration.  The `shutdown` hook is data:
`none` — no hook registered; `some none` — a hook that succeeds;
`some (some e)` — a hook that fails with error `e`. -/
structure ServiceEntry where
  name : String
  inst : Nat
  shutdown : Option (Option String)
deriving DecidableEq, Repr

/-- `httpServiceFactory`: `instance` and `httpClient` are nil (`none`)
until `Initialize` materializes them. -/
structure HttpServiceFactory where
  name : String
  baseURL : String
  factory : FactorySpec
  config : HTTPServiceConfig
  inst : Option Nat
  httpClient : Option Nat
deriving DecidableEq, Repr

/-- `dbServiceFactory`: `factory` is the optional user constructor
(`RegisterDatabase` leaves it nil); `instance` and `db` are nil until
`Initialize` materializes them. -/
structure DbServiceFactory where
  name : String
  config : DatabaseConfig
  factory : Option FactorySpec
  inst : Option Nat
  db : Option Nat
deriving DecidableEq, Repr

/-- `Registry`: the three stores plus the registration-order list.
The `sync.RWMutex` is not modeled — every operation here is the whole
critical section it guards. -/
structure Registry where
  services : List (String × ServiceEntry)
  order : List String
  httpServices : List (String × HttpServiceFactory)
  dbServices : List (String × DbServiceFactory)
deriving DecidableEq, Repr

/-- `NewRegistry`. -/
def newRegistry : Registry :=
  { services := [], order := [], httpServices := [], dbServices := [] }

/-- `Registry.Register`: store the entry and append the name to the order list. -/
def Registry.register (r : Registry) (name : String) (inst : Nat)
    (hook : Option (Option String)) : Registry :=
  { r with
    services := mapInsert r.services name { name := name, inst := inst, shutdown := hook },
    order := r.order ++ [name] }

/-- The DB-store leg of `Registry.Get` (its third `if` block). -/
def Registry.getDb (r : Registry) (name : String) : Option Nat :=
  match List.lookup name r.dbServices with
  | some factory =>
      match factory.inst with
      | some i => some i
      | none => none
  | none => none

/-- `Registry.Get`: plain store first, then materialized HTTP factories,
then materialized DB factories; `none` models `(nil, false)`. -/
def Registry.get (r : Registry) (name : String) : Option Nat :=
  match List.lookup name r.services with
  | some entry => some entry.inst
  | none =>
      match List.lookup name r.httpServices with
      | some factory =>
          match factory.inst with
          | some i => some i
          | none => Registry.getDb r name
      | none => Registry.getDb r name

/-- `Registry.MustGet`: `panic` is modeled as `Except.error` carrying the
panic message. -/
def Registry.mustGet (r : Registry) (name : String) : Except String Nat :=
  match r.get name with
  | some v => Except.ok v
  | none => Except.error ("service \"" ++ name ++ "\" not found")

/-- `RegisterHTTPService` with the option list already folded into `config`
(`DefaultHTTPServiceConfig()` then each option applied). -/
def registerHTTPService (r : Registry) (name : String) (factory : FactorySpec)
    (config : HTTPServiceConfig) : Registry :=
  { r with
    httpServices := mapInsert r.httpServices name
      { name := name, baseURL := config.baseURL, factory := factory,
        config := config, inst := none, httpClient := none } }

/-- `RegisterDatabase`: a DB factory with no user constructor. -/
def registerDatabase (r : Registry) (name : String) (config : DatabaseConfig) :
    Registry :=
  { r with
    dbServices := mapInsert r.dbServices name
      { name := name, config := config, factory := none, inst := none, db := none } }

/-- `RegisterDatabaseService`: a DB factory with a user constructor. -/
def registerDatabaseService (r : Registry) (name : String) (config : DatabaseConfig)
    (factory : FactorySpec) : Registry :=
  { r with
    dbServices := mapInsert r.dbServices name
      { name := name, config := config, factory := some factory,
        inst := none, db := none } }

/-! ## Initialize / Shutdown (registry.go) -/

/-- `fmt.Errorf("ping failed: %w", err)`. -/
def dbPingErr (e : String) : String := "ping failed: " ++ e

/-- `fmt.Errorf("failed to initialize database %q: %w", name, err)`. -/
def dbInitErr (name e : String) : String :=
  "failed to initialize database \"" ++ name ++ "\": " ++ e

/-- `fmt.Errorf("shutdown %q: %w", name, err)`. -/
def hookErrMsg (name e : String) : String :=
  "shutdown \"" ++ name ++ "\": " ++ e

/-- `fmt.Errorf("close database %q: %w", name, err)`. -/
def closeErrMsg (name e : String) : String :=
  "close database \"" ++ name ++ "\": " ++ e

/-- External DB effects observed during `Initialize` / `Shutdown`. -/
inductive Event where
  | dbOpened (db : Nat)
  | dbClosed (db : Nat)
deriving DecidableEq, Repr

/-- The environment standing for `sql.Open` / `db.PingContext`: for a given
config, whether open fails, and whether the connectivity probe fails
(`none` = success, `some e` = that error). -/
structure DbEnv where
  openErr : DatabaseConfig → Option String
  pingErr : DatabaseConfig → Option String

/-- `createInstrumentedHTTPClient`: builds the transport chain and allocates
a fresh `*http.Client`.  The decorators themselves are modeled separately
(`retryRoundTrip`, `applyDefaultHeaders`); here only the fresh allocation
matters: returns the new client token and the advanced counter. -/
def createInstrumentedHTTPClient (ctr : Nat) : Nat × Nat :=
  (ctr, ctr + 1)

/-- `createInstrumentedDB`: open (may fail), configure the pool (an effect
on the external handle, no registry state), ping bound by ctx (may fail —
then the pool is closed and the error is wrapped as `ping failed: …`).
Returns the opened pool token or the error, the counter, and the events. -/
def createInstrumentedDB (env : DbEnv) (config : DatabaseConfig) (ctr : Nat) :
    Except String Nat × Nat × List Event :=
  match env.openErr config with
  | some e => (Except.error e, ctr, [])
  | none =>
      match env.pingErr config with
      | some e =>
          (Except.error (dbPingErr e), ctr + 1,
           [Event.dbOpened ctr, Event.dbClosed ctr])
      | none => (Except.ok ctr, ctr + 1, [Event.dbOpened ctr])

/-- Phase 1 of `Registry.Initialize`: for every HTTP factory, create a fresh
instrumented client and materialize, unconditionally overwriting
`httpClient` and `instance`. -/
def initHttpServices (ctr : Nat) :
    List (String × HttpServiceFactory) → List (String × HttpServiceFactory) × Nat
  | [] => ([], ctr)
  | (name, f) :: rest =>
      let alloc := createInstrumentedHTTPClient ctr
      let f' := { f with httpClient := some alloc.1,
                         inst := some (f.factory.apply alloc.1) }
      let out := initHttpServices alloc.2 rest
      ((name, f') :: out.1, out.2)

/-- Outcome of the DB phase of `Initialize`. -/
structure DbInitOut where
  dbServices : List (String × DbServiceFactory)
  ctr : Nat
  events : List Event
  err : Option String
deriving Repr

/-- The ok-branch of the DB loop body: store the pool and the instance —
`factory.factory(db)` when a user constructor exists, else the pool itself. -/
def materializeDbFactory (f : DbServiceFactory) (db : Nat) : DbServiceFactory :=
  { f with db := some db,
           inst := some (match f.factory with
                         | some spec => spec.apply db
                         | none => db) }

/-- Phase 2 of `Registry.Initialize`: materialize each DB factory in turn;
on a `createInstrumentedDB` failure return the wrapped error at once,
leaving the remaining factories untouched (fail-fast). -/
def initDbServices (env : DbEnv) (ctr : Nat) :
    List (String × DbServiceFactory) → DbInitOut
  | [] => { dbServices := [], ctr := ctr, events := [], err := none }
  | (name, f) :: rest =>
      match createInstrumentedDB env f.config ctr with
      | (Except.error e, ctr', evs) =>
          { dbServices := (name, f) :: rest, ctr := ctr', events := evs,
            err := some (dbInitErr name e) }
      | (Except.ok db, ctr', evs) =>
          let f' := materializeDbFactory f db
          let out := initDbServices env ctr' rest
          { dbServices := (name, f') :: out.dbServices, ctr := out.ctr,
            events := evs ++ out.events, err := out.err }

/-- Outcome of `Registry.Initialize`: the (in-place mutated) registry, the
allocation counter, the DB events and the returned error (if any). -/
structure InitResult where
  registry : Registry
  ctr : Nat
  events : List Event
  err : Option String
deriving Repr

/-- `Registry.Initialize`: HTTP factories first, then DB factories;
a DB failure aborts, but mutations already performed remain (the Go code
mutates factories in place). -/
def Registry.initializeServices (r : Registry) (env : DbEnv) (ctr : Nat) : InitResult :=
  let h := initHttpServices ctr r.httpServices
  let d := initDbServices env h.2 r.dbServices
  { registry := { r with httpServices := h.1, dbServices := d.dbServices },
    ctr := d.ctr, events := d.events, err := d.err }

/-- Outcome of `Registry.Shutdown`: which hooks ran (in order), which DB
pools were closed, and the collected individual failures. -/
structure ShutdownResult where
  hookOrder : List String
  closedDbs : List String
  errs : List String
deriving DecidableEq, Repr

/-- The hook loop of `Shutdown`, iterating the given name list (the reverse
of the order list): invoke the hook where the entry exists and has one,
collecting failures as `shutdown "name": err`. -/
def shutdownHooks (services : List (String × ServiceEntry)) :
    List String → List String × List String
  | [] => ([], [])
  | name :: rest =>
      match List.lookup name services with
      | some entry =>
          match entry.shutdown with
          | some res =>
              let out := shutdownHooks services rest
              (name :: out.1,
               (match res with
                | some e => [hookErrMsg name e]
                | none => []) ++ out.2)
          | none => shutdownHooks services rest
      | none => shutdownHooks services rest

/-- The close loop of `Shutdown`: close every factory's pool where
`factory.db != nil`, collecting failures as `close database "name": err`.
`closeErr name` is whether `db.Close()` fails for that factory. -/
def closeDbs (closeErr : String → Option String) :
    List (String × DbServiceFactory) → List String × List String
  | [] => ([], [])
  | (name, f) :: rest =>
      let out := closeDbs closeErr rest
      match f.db with
      | some _ =>
          (name :: out.1,
           (match closeErr name with
            | some e => [closeErrMsg name e]
            | none => []) ++ out.2)
      | none => out

/-- `Registry.Shutdown`: hooks in reverse registration order (collecting,
never aborting), then close every materialized DB pool, then aggregate. -/
def Registry.shutdown (r : Registry) (closeErr : String → Option String) :
    ShutdownResult :=
  let h := shutdownHooks r.services r.order.reverse
  let c := closeDbs closeErr r.dbServices
  { hookOrder := h.1, closedDbs := c.1, errs := h.2 ++ c.2 }

/-- The value `Shutdown` returns: `nil` when no failure was collected, else
one aggregate error carrying every collected failure
(`fmt.Errorf("shutdown errors: %v", errs)`). -/
def ShutdownResult.aggregate (res : ShutdownResult) : Option (List String) :=
  if res.errs = [] then none else some res.errs

/-! ## Registration sequences (reachable pre-`Initialize` states) -/

/-- One registration call, as named by the claims. -/
inductive RegOp where
  | register (name : String) (inst : Nat) (hook : Option (Option String))
  | registerHTTP (name : String) (factory : FactorySpec) (config : HTTPServiceConfig)
  | registerDB (name : String) (config : DatabaseConfig)
  | registerDBService (name : String) (config : DatabaseConfig) (factory : FactorySpec)
deriving Repr

/-- The service name a registration call targets. -/
def RegOp.name : RegOp → String
  | RegOp.register n _ _ => n
  | RegOp.registerHTTP n _ _ => n
  | RegOp.registerDB n _ => n
  | RegOp.registerDBService n _ _ => n

/-- Apply one registration call to the registry. -/
def applyRegOp (r : Registry) : RegOp → Registry
  | RegOp.register n i h => r.register n i h
  | RegOp.registerHTTP n f c => registerHTTPService r n f c
  | RegOp.registerDB n c => registerDatabase r n c
  | RegOp.registerDBService n c f => registerDatabaseService r n c f

/-- Run a sequence of registration calls. -/
def runRegOps (r : Registry) (ops : List RegOp) : Registry :=
  ops.foldl applyRegOp r

/-! ## Rate-limit store and middleware defaults (middleware.go) -/

/-- `InMemoryRateLimitStore`: carries no state at all. -/
structure InMemoryRateLimitStore where
deriving DecidableEq, Repr

/-- `InMemoryRateLimitStore.Allow`: always
`return true, limit, time.Now().Add(window)`; `now` stands for
`time.Now()` in nanoseconds. -/
def InMemoryRateLimitStore.Allow (_s : InMemoryRateLimitStore) (_key : String)
    (limit : Int) (window : Nat) (now : Nat) : Bool × Int × Nat :=
  (true, limit, now + window)

/-- A `RateLimitStore` value: the bundled in-memory store or a custom one. -/
inductive RateLimitStoreSpec where
  | inMemory
  | custom (allow : String → Int → Nat → Nat → Bool × Int × Nat)

/-- Dispatch `store.Allow(key, limit, window)` at time `now`. -/
def RateLimitStoreSpec.allow : RateLimitStoreSpec → String → Int → Nat → Nat →
    Bool × Int × Nat
  | RateLimitStoreSpec.inMemory, key, limit, window, now =>
      InMemoryRateLimitStore.Allow ⟨⟩ key limit window now
  | RateLimitStoreSpec.custom f, key, limit, window, now => f key limit window now

/-- `RateLimitConfig`: `keyFunc` maps the request's remote address to the
rate-limit key; `none` models a nil field. -/
structure RateLimitConfig where
  requests : Int
  window : Nat
  keyFunc : Option (String → String)
  store : Option RateLimitStoreSpec

/-- The defaulting block at the top of `RateLimit(config)`:
nil `KeyFunc` becomes the remote-address extractor, nil `Store` becomes
`&InMemoryRateLimitStore{}`. -/
def rateLimitDefaults (config : RateLimitConfig) : RateLimitConfig :=
  { config with
    keyFunc := some (fun remoteAddr =>
      match config.keyFunc with
      | some f => f remoteAddr
      | none => remoteAddr),
    store := some (match config.store with
      | some s => s
      | none => RateLimitStoreSpec.inMemory) }

/-! ## Source defaults and derived helpers -/

/-- `DefaultHTTPServiceConfig()`: 30s timeout, 3 retries, 100ms–2s backoff,
retry on 502/503/504, pool sizes 100/10, 90s idle timeout, no headers. -/
def defaultHTTPServiceConfig : HTTPServiceConfig :=
  { baseURL := "", timeout := 30000000000, maxRetries := 3,
    retryWaitMin := 100000000, retryWaitMax := 2000000000,
    retryOnStatus := [502, 503, 504], maxIdleConns := 100,
    maxIdleConnsPerHost := 10, idleConnTimeout := 90000000000,
    defaultHeaders := [] }

/-- `DefaultDatabaseConfig()`: pool 25/10, 5-minute lifetimes. -/
def defaultDatabaseConfig : DatabaseConfig :=
  { driver := "", dsn := "", maxOpenConns := 25, maxIdleConns := 10,
    connMaxLifetime := 300000000000, connMaxIdleTime := 300000000000 }

/-- Whether a registration call is a plain `Register` for this name. -/
def isPlainRegFor (name : String) : RegOp → Bool
  | RegOp.register n _ _ => n = name
  | _ => false

/-- One plain registration (`Register` call): name, instance and hook. -/
structure PlainReg where
  name : String
  inst : Nat
  hook : Option (Option String)
deriving DecidableEq, Repr

/-- Run a sequence of plain `Register` calls. -/
def regsApply (r₀ : Registry) (regs : List PlainReg) : Registry :=
  regs.foldl (fun r g => r.register g.name g.inst g.hook) r₀

/-- Whether the `Shutdown` hook loop invokes a hook for this name:
the entry exists and carries a hook. -/
def hookPresent (services : List (String × ServiceEntry)) (n : String) : Bool :=
  match List.lookup n services with
  | some entry => entry.shutdown.isSome
  | none => false

/-- The failure the hook loop collects for this name (empty when none:
no entry, no hook, or a hook that succeeds). -/
def hookErrsOf (services : List (String × ServiceEntry)) (n : String) : List String :=
  match List.lookup n services with
  | some entry =>
      match entry.shutdown with
      | some (some e) => [hookErrMsg n e]
      | _ => []
  | none => []

/-- The failure the close loop collects for one DB factory (empty when its
pool was never opened or closes cleanly). -/
def closeErrsOf (closeErr : String → Option String)
    (p : String × DbServiceFactory) : List String :=
  match (Prod.snd p).db with
  | some _ =>
      match closeErr (Prod.fst p) with
      | some e => [closeErrMsg (Prod.fst p) e]
      | none => []
  | none => []

/-- A DB environment in which open and ping always succeed. -/
def noFailDbEnv : DbEnv :=
  { openErr := fun _ => none, pingErr := fun _ => none }

/-- A DB environment in which open succeeds but every connectivity probe
fails with `connection refused` (an unreachable DSN). -/
def pingRefusedDbEnv : DbEnv :=
  { openErr := fun _ => none, pingErr := fun _ => some "connection refused" }

/-- A one-HTTP-factory registry (`"svc"`, constructor returning its client). -/
def reinitExampleRegistry : Registry :=
  registerHTTPService newRegistry "svc" FactorySpec.returnClient defaultHTTPServiceConfig

/-- Its first `Initialize` (fresh tokens from 0). -/
def reinitFirst : InitResult := reinitExampleRegistry.initializeServices noFailDbEnv 0

/-- A second `Initialize` on the already-materialized registry. -/
def reinitSecond : InitResult := reinitFirst.registry.initializeServices noFailDbEnv reinitFirst.ctr

/-! ## Theorems: retry transport -/

theorem roundTripFrom_attempts_pos (rt : RetryRoundTripper) (results : Nat → RTResult) :
    ∀ (remaining attempt : Nat), 1 ≤ (roundTripFrom rt results attempt remaining).2.1 := by
  intro remaining attempt
  cases remaining with
  | zero => simp [roundTripFrom]
  | succ n =>
      simp only [roundTripFrom]
      by_cases h : retryReturnNow rt (results attempt) = true
      · simp [h]
      · simp [h]

theorem roundTripFrom_all_retry (rt : RetryRoundTripper) (results : Nat → RTResult) :
    ∀ (remaining attempt : Nat),
      (∀ i, i ≤ remaining → retryReturnNow rt (results (attempt + i)) = false) →
      roundTripFrom rt results attempt remaining =
        (results (attempt + remaining), remaining + 1,
         (List.range remaining).map (fun j => retryWait rt (attempt + j))) := by
  intro remaining
  induction remaining with
  | zero =>
      intro attempt h
      simp [roundTripFrom]
  | succ n ih =>
      intro attempt h
      have h0 : retryReturnNow rt (results attempt) = false := by
        simpa using h 0 (Nat.zero_le _)
      have hrec := ih (attempt + 1) (fun i hi => by
        have := h (i + 1) (Nat.succ_le_succ hi)
        simpa [Nat.add_assoc, Nat.add_comm 1 i] using this)
      simp only [roundTripFrom, h0, Bool.false_eq_true, if_false, hrec]
      refine Prod.ext ?_ (Prod.ext ?_ ?_)
      · show results (attempt + 1 + n) = results (attempt + (n + 1))
        congr 1
        omega
      · rfl
      · show retryWait rt attempt :: (List.range n).map (fun j => retryWait rt (attempt + 1 + j)) =
          (List.range (n + 1)).map (fun j => retryWait rt (attempt + j))
        rw [List.range_succ_eq_map, List.map_cons, List.map_map]
        refine congrArg₂ List.cons (by simp) ?_
        refine List.map_congr_left (fun j _ => ?_)
        show retryWait rt (attempt + 1 + j) = retryWait rt (attempt + (j + 1))
        congr 1
        omega

/-- C1 (counterexample): the base transport fails with a transport-level
error on the first attempt; the claim predicts that this error is returned
immediately with no further attempt, but the code's early return fires only
on `err == nil && !shouldRetry(...)`, so the error falls through to the
retry path: a second attempt is made and its 200 response is returned. -/
theorem c1_counterexample :
    (fun n => if n = 0 then RTResult.err "connection refused" else RTResult.resp 200) 0
        = RTResult.err "connection refused" ∧
    retryRoundTrip { maxRetries := 1, minWait := 100, maxWait := 200, retryOn := [503] }
        (fun n => if n = 0 then RTResult.err "connection refused" else RTResult.resp 200) =
      (RTResult.resp 200, 2, [100]) :=
  ⟨rfl, rfl⟩

/-- C1 (amended): only a response whose status is outside the retry-on set
returns immediately; a transport-level error is treated like a retryable
status — it triggers a further attempt when retries remain, and when every
attempt errors, the last error is returned after `maxRetries + 1` attempts
with capped exponential backoff between attempts. -/
theorem c1_amended_errors_also_retried (rt : RetryRoundTripper) (results : Nat → RTResult) :
    (∀ s, results 0 = RTResult.resp s → shouldRetry rt.retryOn s = false →
        retryRoundTrip rt results = (results 0, 1, [])) ∧
    (∀ e, results 0 = RTResult.err e → 0 < rt.maxRetries →
        2 ≤ (retryRoundTrip rt results).2.1) ∧
    ((∀ i, i ≤ rt.maxRetries → ∃ e, results i = RTResult.err e) →
        retryRoundTrip rt results =
          (results rt.maxRetries, rt.maxRetries + 1,
           (List.range rt.maxRetries).map (fun j => min (rt.minWait * 2 ^ j) rt.maxWait))) := by
  refine ⟨?_, ?_, ?_⟩
  · intro s hs hr
    cases hm : rt.maxRetries with
    | zero => simp [retryRoundTrip, hm, roundTripFrom]
    | succ n => simp [retryRoundTrip, hm, roundTripFrom, retryReturnNow, hs, hr]
  · intro e he hpos
    obtain ⟨n, hn⟩ : ∃ n, rt.maxRetries = n + 1 :=
      ⟨rt.maxRetries - 1, by omega⟩
    have h1 := roundTripFrom_attempts_pos rt results n (0 + 1)
    simp only [retryRoundTrip, hn, roundTripFrom, retryReturnNow, he]
    simpa using h1
  · intro h
    have := roundTripFrom_all_retry rt results rt.maxRetries 0 (fun i hi => by
      obtain ⟨e, he⟩ := h i (by simpa using hi)
      simp [retryReturnNow, he])
    simpa [retryRoundTrip, retryWait] using this

/-- C1 (amended, witness): with `maxRetries = 1` and a base transport that
always fails, both attempts are made and the last error comes back after
one backoff sleep of 100. -/
theorem c1_amended_witness :
    retryRoundTrip { maxRetries := 1, minWait := 100, maxWait := 200, retryOn := [503] }
        (fun _ => RTResult.err "connection refused") =
      (RTResult.err "connection refused", 2, [100]) := by
  have := (c1_amended_errors_also_retried
      { maxRetries := 1, minWait := 100, maxWait := 200, retryOn := [503] }
      (fun _ => RTResult.err "connection refused")).2.2
      (fun i _ => ⟨"connection refused", rfl⟩)
  simpa using this

/-- C2: when every base result has a status in the retry-on set, the
transport makes exactly `maxRetries + 1` attempts, sleeping
`min(minWait * 2^attempt, maxWait)` between consecutive attempts, and
returns the last response unchanged. -/
theorem c2_retry_exhausts_and_returns_last (rt : RetryRoundTripper)
    (results : Nat → RTResult)
    (h : ∀ i, i ≤ rt.maxRetries →
        ∃ s, results i = RTResult.resp s ∧ shouldRetry rt.retryOn s = true) :
    retryRoundTrip rt results =
      (results rt.maxRetries, rt.maxRetries + 1,
       (List.range rt.maxRetries).map (fun j => min (rt.minWait * 2 ^ j) rt.maxWait)) := by
  have := roundTripFrom_all_retry rt results rt.maxRetries 0 (fun i hi => by
    obtain ⟨s, hs, hr⟩ := h i (by simpa using hi)
    simp [retryReturnNow, hs, hr])
  simpa [retryRoundTrip, retryWait] using this

/-- C2 (witness): every response 503 and `maxRetries = 2` (the default
`minWait`/`maxWait` of 100ms/2s): final status 503 after exactly 3 attempts,
sleeping 100ms then 200ms. -/
theorem c2_witness :
    retryRoundTrip
        { maxRetries := 2, minWait := 100000000, maxWait := 2000000000, retryOn := [503] }
        (fun _ => RTResult.resp 503) =
      (RTResult.resp 503, 3, [100000000, 200000000]) := by
  have := c2_retry_exhausts_and_returns_last
      { maxRetries := 2, minWait := 100000000, maxWait := 2000000000, retryOn := [503] }
      (fun _ => RTResult.resp 503)
      (fun i _ => ⟨503, rfl, rfl⟩)
  rw [this]
  rfl

/-! ## Theorems: header transport -/

theorem headerGet_set_ne (h : Header) (k k' v : String) (hk : k' ≠ k) :
    headerGet (headerSet h k v) k' = headerGet h k' := by
  simp [headerGet, headerSet, lookup_mapInsert, hk]

theorem headerGet_set_self (h : Header) (k v : String) :
    headerGet (headerSet h k v) k = v := by
  simp [headerGet, headerSet, lookup_mapInsert]

theorem applyDefaultHeaders_cons (p : String × String) (rest : List (String × String))
    (h : Header) :
    applyDefaultHeaders (p :: rest) h =
      applyDefaultHeaders rest (if headerGet h p.1 = "" then headerSet h p.1 p.2 else h) := by
  simp [applyDefaultHeaders]

theorem applyDefaultHeaders_get_preserved (defaults : List (String × String)) :
    ∀ (h : Header) (k : String), headerGet h k ≠ "" →
      headerGet (applyDefaultHeaders defaults h) k = headerGet h k := by
  induction defaults with
  | nil => intro h k _; rfl
  | cons p rest ih =>
      intro h k hk
      rw [applyDefaultHeaders_cons]
      by_cases he : headerGet h p.1 = ""
      · have hne : k ≠ p.1 := fun hc => hk (hc ▸ he)
        rw [if_pos he]
        rw [ih _ k (by rw [headerGet_set_ne h p.1 k p.2 hne]; exact hk)]
        exact headerGet_set_ne h p.1 k p.2 hne
      · rw [if_neg he]
        exact ih h k hk

theorem applyDefaultHeaders_get_of_none (defaults : List (String × String)) :
    ∀ (h : Header) (k : String), (∀ p ∈ defaults, p.1 ≠ k) →
      headerGet (applyDefaultHeaders defaults h) k = headerGet h k := by
  induction defaults with
  | nil => intro h k _; rfl
  | cons p rest ih =>
      intro h k hk
      rw [applyDefaultHeaders_cons]
      have hp : p.1 ≠ k := hk p (List.mem_cons_self _ _)
      by_cases he : headerGet h p.1 = ""
      · rw [if_pos he, ih _ k (fun q hq => hk q (List.mem_cons_of_mem _ hq))]
        exact headerGet_set_ne h p.1 k p.2 (Ne.symm hp)
      · rw [if_neg he]
        exact ih h k (fun q hq => hk q (List.mem_cons_of_mem _ hq))

theorem applyDefaultHeaders_sets_absent (defaults : List (String × String)) :
    ∀ (h : Header) (k v : String), (defaults.map Prod.fst).Nodup → (k, v) ∈ defaults →
      headerGet h k = "" → headerGet (applyDefaultHeaders defaults h) k = v := by
  induction defaults with
  | nil =>
      intro h k v _ hm
      simp at hm
  | cons p rest ih =>
      intro h k v hnd hm he
      obtain ⟨k₀, v₀⟩ := p
      simp only [List.map_cons, List.nodup_cons] at hnd
      rw [applyDefaultHeaders_cons]
      rcases List.mem_cons.mp hm with h1 | h1
      · obtain ⟨hk, hv⟩ := Prod.mk.inj h1
        subst hk
        subst hv
        rw [if_pos he]
        rw [applyDefaultHeaders_get_of_none rest _ k
          (fun q hq hc => hnd.1 (hc ▸ List.mem_map_of_mem Prod.fst hq))]
        exact headerGet_set_self h k v
      · have hk0 : k₀ ≠ k := fun hc => hnd.1 (hc ▸ List.mem_map_of_mem Prod.fst h1)
        by_cases he0 : headerGet h k₀ = ""
        · rw [if_pos he0]
          exact ih _ k v hnd.2 h1 (by rw [headerGet_set_ne h k₀ k v₀ (Ne.symm hk0)]; exact he)
        · rw [if_neg he0]
          exact ih h k v hnd.2 h1 he

/-- C5 (counterexample): a request whose caller set `Authorization` to the
empty string does carry that header, yet `Get` returns `""` for it, so the
default-header pass overwrites the caller-set value — refuting "never
overwrites a header the caller set". -/
theorem c5_counterexample :
    List.lookup "Authorization" ([("Authorization", [""])] : Header) = some [""] ∧
    headerGet (applyDefaultHeaders [("Authorization", "Bearer default")]
        [("Authorization", [""])]) "Authorization" = "Bearer default" :=
  ⟨rfl, rfl⟩

/-- C5 (amended): the header transport sets a configured default exactly
when `Get` on that key returns the empty string (key absent or carrying an
empty value); a header the caller set to any non-empty value is never
overwritten, and an absent key receives the configured default. -/
theorem c5_amended_default_headers (defaults : List (String × String)) (h : Header)
    (k : String) :
    (headerGet h k ≠ "" →
        headerGet (applyDefaultHeaders defaults h) k = headerGet h k) ∧
    (∀ v, (defaults.map Prod.fst).Nodup → (k, v) ∈ defaults → headerGet h k = "" →
        headerGet (applyDefaultHeaders defaults h) k = v) :=
  ⟨applyDefaultHeaders_get_preserved defaults h k,
   fun v hnd hm he => applyDefaultHeaders_sets_absent defaults h k v hnd hm he⟩

/-- C5 (amended, witness): the claim's own example — a caller-set
`Authorization: Bearer override` survives a default
`Authorization: Bearer default`, and on a request without the header the
default is applied. -/
theorem c5_amended_witness :
    headerGet (applyDefaultHeaders [("Authorization", "Bearer default")]
        ([("Authorization", ["Bearer override"])] : Header)) "Authorization" =
      "Bearer override" ∧
    headerGet (applyDefaultHeaders [("Authorization", "Bearer default")]
        ([] : Header)) "Authorization" = "Bearer default" := by
  constructor
  · have := (c5_amended_default_headers [("Authorization", "Bearer default")]
        ([("Authorization", ["Bearer override"])] : Header) "Authorization").1
        (by decide)
    rw [this]
    rfl
  · exact (c5_amended_default_headers [("Authorization", "Bearer default")]
        ([] : Header) "Authorization").2 "Bearer default" (by decide)
        (List.mem_cons_self _ _) rfl

/-! ## Theorems: lookup (Get / MustGet) -/

/-- C6: `MustGet(name)` panics exactly when `Get(name)` reports not-found,
and otherwise returns the very value `Get` returns. -/
theorem c6_mustGet_panics_iff_not_found (r : Registry) (name : String) :
    ((∃ e, r.mustGet name = Except.error e) ↔ r.get name = none) ∧
    (∀ v, r.get name = some v → r.mustGet name = Except.ok v) := by
  constructor
  · constructor
    · rintro ⟨e, he⟩
      cases h : r.get name with
      | none => rfl
      | some v => simp [Registry.mustGet, h] at he
    · intro h
      exact ⟨"service \"" ++ name ++ "\" not found", by simp [Registry.mustGet, h]⟩
  · intro v h
    simp [Registry.mustGet, h]

/-- C6 (witness): after registering `"cache"` with instance 7, `Get` finds
7 and `MustGet` returns the same value. -/
theorem c6_witness :
    Registry.mustGet (newRegistry.register "cache" 7 none) "cache" = Except.ok 7 :=
  (c6_mustGet_panics_iff_not_found (newRegistry.register "cache" 7 none) "cache").2 7 rfl

/-! ## Theorems: rate-limit store -/

/-- C10: the bundled `InMemoryRateLimitStore.Allow` always allows, reports
`remaining = limit` and `resetAt = now + window` regardless of the key and
of any call history (it keeps no per-key counter), and the `RateLimit`
middleware defaults a nil store to exactly this store. -/
theorem c10_inmemory_allow_and_default :
    (∀ (s : InMemoryRateLimitStore) (key : String) (limit : Int) (window now : Nat),
        s.Allow key limit window now = (true, limit, now + window)) ∧
    (∀ cfg : RateLimitConfig, cfg.store = none →
        (rateLimitDefaults cfg).store = some RateLimitStoreSpec.inMemory) := by
  refine ⟨fun s key limit window now => rfl, fun cfg h => ?_⟩
  simp [rateLimitDefaults, h]

/-- C10 (witness): a concrete call is allowed with full remaining budget,
and a config without a store gets the in-memory one. -/
theorem c10_witness :
    InMemoryRateLimitStore.Allow ⟨⟩ "10.0.0.1:5412" 100 60000000000 5 =
      (true, 100, 60000000005) ∧
    (rateLimitDefaults
        { requests := 100, window := 60000000000, keyFunc := none, store := none }).store =
      some RateLimitStoreSpec.inMemory :=
  ⟨c10_inmemory_allow_and_default.1 ⟨⟩ "10.0.0.1:5412" 100 60000000000 5,
   c10_inmemory_allow_and_default.2 _ rfl⟩

/-! ## Theorems: Get resolution and store uniqueness -/

theorem get_none_of_unmaterialized (r : Registry) (name : String)
    (hs : List.lookup name r.services = none)
    (hh : ∀ f : HttpServiceFactory, List.lookup name r.httpServices = some f → f.inst = none)
    (hd : ∀ f : DbServiceFactory, List.lookup name r.dbServices = some f → f.inst = none) :
    r.get name = none := by
  have hdb : Registry.getDb r name = none := by
    cases hd2 : List.lookup name r.dbServices with
    | some g => simp [Registry.getDb, hd2, hd g hd2]
    | none => simp [Registry.getDb, hd2]
  cases hh2 : List.lookup name r.httpServices with
  | some f => simp [Registry.get, hs, hh2, hh f hh2, hdb]
  | none => simp [Registry.get, hs, hh2, hdb]

theorem runRegOps_get_none :
    ∀ (ops : List RegOp) (r : Registry) (name : String),
      (∀ op ∈ ops, isPlainRegFor name op = false) →
      List.lookup name r.services = none →
      (∀ f : HttpServiceFactory, List.lookup name r.httpServices = some f → f.inst = none) →
      (∀ f : DbServiceFactory, List.lookup name r.dbServices = some f → f.inst = none) →
      Registry.get (runRegOps r ops) name = none := by
  intro ops
  induction ops with
  | nil =>
      intro r name _ hs hh hd
      exact get_none_of_unmaterialized r name hs hh hd
  | cons op rest ih =>
      intro r name hops hs hh hd
      have hrest : ∀ o ∈ rest, isPlainRegFor name o = false :=
        fun o ho => hops o (List.mem_cons_of_mem _ ho)
      show Registry.get (runRegOps (applyRegOp r op) rest) name = none
      cases op with
      | register n i hk =>
          have hne : n ≠ name := by
            have := hops (RegOp.register n i hk) (List.mem_cons_self _ _)
            simpa [isPlainRegFor] using this
          refine ih _ name hrest ?_ hh hd
          show List.lookup name (mapInsert r.services n _) = none
          rw [lookup_mapInsert]
          rw [if_neg (fun hc => hne hc.symm)]
          exact hs
      | registerHTTP n f c =>
          refine ih _ name hrest hs ?_ hd
          intro g hg
          simp only [applyRegOp] at hg
          by_cases hn : name = n
          · subst hn
            rw [show List.lookup name (registerHTTPService r name f c).httpServices =
                some { name := name, baseURL := c.baseURL, factory := f, config := c,
                       inst := none, httpClient := none } from by
              simp [registerHTTPService, lookup_mapInsert]] at hg
            cases hg
            rfl
          · have : List.lookup name (registerHTTPService r n f c).httpServices =
                List.lookup name r.httpServices := by
              simp [registerHTTPService, lookup_mapInsert, hn]
            rw [this] at hg
            exact hh g hg
      | registerDB n c =>
          refine ih _ name hrest hs hh ?_
          intro g hg
          simp only [applyRegOp] at hg
          by_cases hn : name = n
          · subst hn
            rw [show List.lookup name (registerDatabase r name c).dbServices =
                some { name := name, config := c, factory := none,
                       inst := none, db := none } from by
              simp [registerDatabase, lookup_mapInsert]] at hg
            cases hg
            rfl
          · have : List.lookup name (registerDatabase r n c).dbServices =
                List.lookup name r.dbServices := by
              simp [registerDatabase, lookup_mapInsert, hn]
            rw [this] at hg
            exact hd g hg
      | registerDBService n c f =>
          refine ih _ name hrest hs hh ?_
          intro g hg
          simp only [applyRegOp] at hg
          by_cases hn : name = n
          · subst hn
            rw [show List.lookup name (registerDatabaseService r name c f).dbServices =
                some { name := name, config := c, factory := some f,
                       inst := none, db := none } from by
              simp [registerDatabaseService, lookup_mapInsert]] at hg
            cases hg
            rfl
          · have : List.lookup name (registerDatabaseService r n c f).dbServices =
                List.lookup name r.dbServices := by
              simp [registerDatabaseService, lookup_mapInsert, hn]
            rw [this] at hg
            exact hd g hg

/-- C7: `Get` is total (it returns an `Option`, never an error); on any
state reached by registration calls alone it returns not-found for every
name that was never the target of a plain `Register` — both never-registered
names and registered-but-unmaterialized HTTP/DB factories; and it resolves
by consulting the plain store first, then materialized HTTP factories, then
materialized DB factories. -/
theorem c7_get_not_found_and_priority :
    (∀ (ops : List RegOp) (name : String),
        (∀ op ∈ ops, isPlainRegFor name op = false) →
        Registry.get (runRegOps newRegistry ops) name = none) ∧
    (∀ (r : Registry) (name : String) (entry : ServiceEntry),
        List.lookup name r.services = some entry → r.get name = some entry.inst) ∧
    (∀ (r : Registry) (name : String) (f : HttpServiceFactory) (i : Nat),
        List.lookup name r.services = none →
        List.lookup name r.httpServices = some f → f.inst = some i →
        r.get name = some i) ∧
    (∀ (r : Registry) (name : String) (g : DbServiceFactory) (i : Nat),
        List.lookup name r.services = none →
        (∀ f : HttpServiceFactory, List.lookup name r.httpServices = some f →
            f.inst = none) →
        List.lookup name r.dbServices = some g → g.inst = some i →
        r.get name = some i) := by
  refine ⟨?_, ?_, ?_, ?_⟩
  · intro ops name hops
    exact runRegOps_get_none ops newRegistry name hops rfl
      (fun f hf => by simp [newRegistry, lookup_nil] at hf)
      (fun f hf => by simp [newRegistry, lookup_nil] at hf)
  · intro r name entry h
    simp [Registry.get, h]
  · intro r name f i hs hh hi
    simp [Registry.get, hs, hh, hi]
  · intro r name g i hs hh hd hi
    cases hh2 : List.lookup name r.httpServices with
    | some f => simp [Registry.get, Registry.getDb, hs, hh2, hh f hh2, hd, hi]
    | none => simp [Registry.get, Registry.getDb, hs, hh2, hd, hi]

/-- C7 (witness): after registering an HTTP factory `"api"` and a DB
factory `"maindb"` (no `Initialize`), `Get` reports not-found for both, and
also for the never-registered `"ghost"`. -/
theorem c7_witness :
    Registry.get (runRegOps newRegistry
      [RegOp.registerHTTP "api" FactorySpec.returnClient defaultHTTPServiceConfig,
       RegOp.registerDB "maindb" defaultDatabaseConfig]) "api" = none ∧
    Registry.get (runRegOps newRegistry
      [RegOp.registerHTTP "api" FactorySpec.returnClient defaultHTTPServiceConfig,
       RegOp.registerDB "maindb" defaultDatabaseConfig]) "ghost" = none :=
  ⟨c7_get_not_found_and_priority.1
      [RegOp.registerHTTP "api" FactorySpec.returnClient defaultHTTPServiceConfig,
       RegOp.registerDB "maindb" defaultDatabaseConfig] "api" (by decide),
   c7_get_not_found_and_priority.1
      [RegOp.registerHTTP "api" FactorySpec.returnClient defaultHTTPServiceConfig,
       RegOp.registerDB "maindb" defaultDatabaseConfig] "ghost" (by decide)⟩

/-- C8 (counterexample): `Register("x", …)` followed by
`RegisterHTTPService(app, "x", …)` leaves the name `"x"` stored in the
plain store and the HTTP-factory store simultaneously — no registration
path checks the other stores. -/
theorem c8_counterexample :
    (List.lookup "x"
        (registerHTTPService (newRegistry.register "x" 0 none) "x"
          FactorySpec.returnClient defaultHTTPServiceConfig).services).isSome = true ∧
    (List.lookup "x"
        (registerHTTPService (newRegistry.register "x" 0 none) "x"
          FactorySpec.returnClient defaultHTTPServiceConfig).httpServices).isSome = true :=
  ⟨rfl, rfl⟩

/-- C8 (amended): names are unique keys within each of the three stores in
every state reachable by registration calls (a Go map holds one binding per
key, re-registration overwrites); but nothing prevents the same name from
living simultaneously in two different stores — cross-store uniqueness is a
caller obligation, with `Get` resolving collisions by store priority. -/
theorem c8_amended_names_unique_within_each_store (ops : List RegOp) :
    ((runRegOps newRegistry ops).services.map Prod.fst).Nodup ∧
    ((runRegOps newRegistry ops).httpServices.map Prod.fst).Nodup ∧
    ((runRegOps newRegistry ops).dbServices.map Prod.fst).Nodup := by
  suffices h : ∀ (ops : List RegOp) (r : Registry),
      (r.services.map Prod.fst).Nodup →
      (r.httpServices.map Prod.fst).Nodup →
      (r.dbServices.map Prod.fst).Nodup →
      ((runRegOps r ops).services.map Prod.fst).Nodup ∧
      ((runRegOps r ops).httpServices.map Prod.fst).Nodup ∧
      ((runRegOps r ops).dbServices.map Prod.fst).Nodup by
    exact h ops newRegistry (by simp [newRegistry]) (by simp [newRegistry])
      (by simp [newRegistry])
  intro ops
  induction ops with
  | nil => intro r h1 h2 h3; exact ⟨h1, h2, h3⟩
  | cons op rest ih =>
      intro r h1 h2 h3
      show ((runRegOps (applyRegOp r op) rest).services.map Prod.fst).Nodup ∧ _ ∧ _
      cases op with
      | register n i hk => exact ih _ (keys_mapInsert_nodup _ _ _ h1) h2 h3
      | registerHTTP n f c => exact ih _ h1 (keys_mapInsert_nodup _ _ _ h2) h3
      | registerDB n c => exact ih _ h1 h2 (keys_mapInsert_nodup _ _ _ h3)
      | registerDBService n c f => exact ih _ h1 h2 (keys_mapInsert_nodup _ _ _ h3)

/-! ## Theorems: materialization (Initialize) -/

theorem initHttpServices_lookup :
    ∀ (l : List (String × HttpServiceFactory)) (ctr : Nat) (name : String)
      (f : HttpServiceFactory),
      List.lookup name l = some f →
      ∃ c, ctr ≤ c ∧ List.lookup name (initHttpServices ctr l).1 =
        some { f with httpClient := some c, inst := some (f.factory.apply c) } := by
  intro l
  induction l with
  | nil =>
      intro ctr name f h
      simp [lookup_nil] at h
  | cons p rest ih =>
      obtain ⟨n₀, f₀⟩ := p
      intro ctr name f h
      rw [lookup_cons] at h
      by_cases hn : name = n₀
      · rw [if_pos hn] at h
        injection h with h1
        subst h1
        exact ⟨ctr, Nat.le_refl _,
          by simp [initHttpServices, createInstrumentedHTTPClient, lookup_cons, hn]⟩
      · rw [if_neg hn] at h
        obtain ⟨c, hc, hl⟩ := ih (ctr + 1) name f h
        exact ⟨c, by omega,
          by simp [initHttpServices, createInstrumentedHTTPClient, lookup_cons, hn, hl]⟩

theorem initHttpServices_lookup_none :
    ∀ (l : List (String × HttpServiceFactory)) (ctr : Nat) (name : String),
      List.lookup name l = none → List.lookup name (initHttpServices ctr l).1 = none := by
  intro l
  induction l with
  | nil => intro ctr name _; rfl
  | cons p rest ih =>
      obtain ⟨n₀, f₀⟩ := p
      intro ctr name h
      rw [lookup_cons] at h
      by_cases hn : name = n₀
      · rw [if_pos hn] at h
        cases h
      · rw [if_neg hn] at h
        simp [initHttpServices, createInstrumentedHTTPClient, lookup_cons, hn, ih _ _ h]

/-- C9 (counterexample): one HTTP factory whose constructor returns its
client; the first `Initialize` materializes instance 0, and a second call
to `Initialize` re-runs the factory with a freshly allocated client and
overwrites the stored instance with 1 — it is not immutable under further
`Initialize` calls. -/
theorem c9_counterexample :
    reinitFirst.registry.get "svc" = some 0 ∧
    reinitSecond.registry.get "svc" = some 1 :=
  ⟨rfl, rfl⟩

/-- C9 (amended): plain `Register` calls never touch the factory stores, so
a materialized instance is not replaced by later registrations (and `Get` /
`Shutdown` mutate nothing); but every call to `Initialize` re-materializes
every HTTP factory with a freshly allocated client (token at or above the
allocation counter), unconditionally overwriting `httpClient` and the
stored instance — so single materialization holds only under the host
contract that `Initialize` runs exactly once. -/
theorem c9_amended_single_materialization_per_init (r : Registry) :
    (∀ (n : String) (i : Nat) (hk : Option (Option String)),
        (Registry.register r n i hk).httpServices = r.httpServices ∧
        (Registry.register r n i hk).dbServices = r.dbServices) ∧
    (∀ (env : DbEnv) (ctr : Nat) (name : String) (f : HttpServiceFactory),
        List.lookup name r.httpServices = some f →
        ∃ c, ctr ≤ c ∧
          List.lookup name ((r.initializeServices env ctr).registry).httpServices =
            some { f with httpClient := some c,
                          inst := some (f.factory.apply c) }) := by
  constructor
  · intro n i hk
    exact ⟨rfl, rfl⟩
  · intro env ctr name f hf
    obtain ⟨c, hc, hl⟩ := initHttpServices_lookup r.httpServices ctr name f hf
    exact ⟨c, hc, hl⟩

/-- C9 (amended, witness): the example registry's factory is materialized
by the first `Initialize` call. -/
theorem c9_amended_witness :
    (List.lookup "svc"
        ((reinitExampleRegistry.initializeServices noFailDbEnv 0).registry).httpServices).isSome
      = true := by
  obtain ⟨c, hc, hl⟩ :=
    (c9_amended_single_materialization_per_init reinitExampleRegistry).2
      noFailDbEnv 0 "svc"
      { name := "svc", baseURL := "", factory := FactorySpec.returnClient,
        config := defaultHTTPServiceConfig, inst := none, httpClient := none } rfl
  rw [hl]
  rfl

/-! ## Theorems: fail-fast DB provisioning (Initialize) -/

theorem lookup_append_of_ne {α : Type} :
    ∀ (l₁ l₂ : List (String × α)) (k : String),
      (∀ p ∈ l₁, Prod.fst p ≠ k) → List.lookup k (l₁ ++ l₂) = List.lookup k l₂ := by
  intro l₁
  induction l₁ with
  | nil => intro l₂ k _; rfl
  | cons p t ih =>
      intro l₂ k hk
      obtain ⟨k₀, v₀⟩ := p
      have h0 : k₀ ≠ k := hk (k₀, v₀) (List.mem_cons_self _ _)
      rw [List.cons_append, lookup_cons, if_neg (fun hc => h0 hc.symm)]
      exact ih l₂ k (fun q hq => hk q (List.mem_cons_of_mem _ hq))

theorem initDbServices_failure (env : DbEnv) (d : String) (f : DbServiceFactory)
    (e : String) :
    ∀ (l₁ : List (String × DbServiceFactory)) (ctr : Nat)
      (l₂ : List (String × DbServiceFactory)),
      (∀ p ∈ l₁, env.openErr (Prod.snd p).config = none ∧
          env.pingErr (Prod.snd p).config = none) →
      env.openErr f.config = none → env.pingErr f.config = some e →
      ∃ (l₁' : List (String × DbServiceFactory)) (c : Nat) (evs : List Event),
        initDbServices env ctr (l₁ ++ (d, f) :: l₂) =
          { dbServices := l₁' ++ (d, f) :: l₂, ctr := c + 1,
            events := evs ++ [Event.dbOpened c, Event.dbClosed c],
            err := some (dbInitErr d (dbPingErr e)) } ∧
        l₁'.map Prod.fst = l₁.map Prod.fst := by
  intro l₁
  induction l₁ with
  | nil =>
      intro ctr l₂ _ hopen hping
      refine ⟨[], ctr, [], ?_, rfl⟩
      simp [initDbServices, createInstrumentedDB, hopen, hping]
  | cons p t ih =>
      intro ctr l₂ hok hopen hping
      obtain ⟨n₀, g₀⟩ := p
      have h0 := hok (n₀, g₀) (List.mem_cons_self _ _)
      obtain ⟨l₁', c, evs, heq, hnames⟩ :=
        ih (ctr + 1) l₂ (fun q hq => hok q (List.mem_cons_of_mem _ hq)) hopen hping
      refine ⟨(n₀, materializeDbFactory g₀ ctr) :: l₁',
        c, Event.dbOpened ctr :: evs, ?_, by simp [hnames]⟩
      simp [initDbServices, createInstrumentedDB, h0.1, h0.2, heq]

/-- C4: when the connectivity probe for DB factory `d` fails during
`Initialize` (open succeeds, ping fails; every DB factory processed before
it succeeds), `Initialize` returns at once with the wrapped error
`failed to initialize database "d": ping failed: …`, the pool opened for
`d` is closed (last opened, last closed in the event trail), the factories
at and after `d` stay untouched (fail-fast), and `Get` on `d` afterwards
reports not-found — no partially-materialized instance is observable. -/
theorem c4_initialize_db_probe_failure (r : Registry) (env : DbEnv) (ctr : Nat)
    (d : String) (f : DbServiceFactory) (e : String)
    (l₁ l₂ : List (String × DbServiceFactory))
    (hsplit : r.dbServices = l₁ ++ (d, f) :: l₂)
    (hbefore : ∀ p ∈ l₁, env.openErr (Prod.snd p).config = none ∧
        env.pingErr (Prod.snd p).config = none)
    (hd1 : ∀ p ∈ l₁, Prod.fst p ≠ d)
    (hopen : env.openErr f.config = none)
    (hping : env.pingErr f.config = some e)
    (hinst : f.inst = none)
    (hsvc : List.lookup d r.services = none)
    (hhttp : List.lookup d r.httpServices = none) :
    (r.initializeServices env ctr).err = some (dbInitErr d (dbPingErr e)) ∧
    (∃ evs c, (r.initializeServices env ctr).events =
        evs ++ [Event.dbOpened c, Event.dbClosed c]) ∧
    (r.initializeServices env ctr).registry.get d = none ∧
    (∃ l₁', (r.initializeServices env ctr).registry.dbServices = l₁' ++ (d, f) :: l₂ ∧
        l₁'.map Prod.fst = l₁.map Prod.fst) := by
  obtain ⟨l₁', c, evs, heq, hnames⟩ :=
    initDbServices_failure env d f e l₁ (initHttpServices ctr r.httpServices).2 l₂
      hbefore hopen hping
  have hdb : (r.initializeServices env ctr).registry.dbServices = l₁' ++ (d, f) :: l₂ := by
    simp [Registry.initializeServices, hsplit, heq]
  have herr : (r.initializeServices env ctr).err = some (dbInitErr d (dbPingErr e)) := by
    simp [Registry.initializeServices, hsplit, heq]
  have hev : (r.initializeServices env ctr).events =
      evs ++ [Event.dbOpened c, Event.dbClosed c] := by
    simp [Registry.initializeServices, hsplit, heq]
  have hd1' : ∀ p ∈ l₁', Prod.fst p ≠ d := by
    intro p hp
    have : Prod.fst p ∈ l₁.map Prod.fst := by
      rw [← hnames]
      exact List.mem_map_of_mem Prod.fst hp
    obtain ⟨q, hq, hq2⟩ := List.mem_map.mp this
    exact hq2 ▸ hd1 q hq
  refine ⟨herr, ⟨evs, c, hev⟩, ?_, ⟨l₁', hdb, hnames⟩⟩
  apply get_none_of_unmaterialized
  · show List.lookup d (r.initializeServices env ctr).registry.services = none
    simpa [Registry.initializeServices] using hsvc
  · intro g hg
    rw [show (r.initializeServices env ctr).registry.httpServices =
        (initHttpServices ctr r.httpServices).1 from by simp [Registry.initializeServices]] at hg
    rw [initHttpServices_lookup_none r.httpServices ctr d hhttp] at hg
    cases hg
  · intro g hg
    rw [hdb, lookup_append_of_ne l₁' _ d hd1', lookup_cons, if_pos rfl] at hg
    injection hg with h1
    subst h1
    exact hinst

/-- C4 (witness): a single DB registration against an unreachable DSN —
`Initialize` returns the wrapped ping error and `Get "maindb"` is
not-found afterwards. -/
theorem c4_witness :
    ((registerDatabase newRegistry "maindb" defaultDatabaseConfig).initializeServices
        pingRefusedDbEnv 0).err =
      some (dbInitErr "maindb" (dbPingErr "connection refused")) ∧
    ((registerDatabase newRegistry "maindb" defaultDatabaseConfig).initializeServices
        pingRefusedDbEnv 0).registry.get "maindb" = none := by
  have h := c4_initialize_db_probe_failure
      (registerDatabase newRegistry "maindb" defaultDatabaseConfig)
      pingRefusedDbEnv 0 "maindb"
      { name := "maindb", config := defaultDatabaseConfig, factory := none,
        inst := none, db := none }
      "connection refused" [] [] rfl (by simp) (by simp) rfl rfl rfl rfl rfl
  exact ⟨h.1, h.2.2.1⟩

/-! ## Theorems: Shutdown ordering and aggregation -/

theorem shutdownHooks_spec (services : List (String × ServiceEntry)) :
    ∀ ns : List String,
      shutdownHooks services ns =
        (ns.filter (hookPresent services), ns.flatMap (hookErrsOf services)) := by
  intro ns
  induction ns with
  | nil => rfl
  | cons n rest ih =>
      cases hl : List.lookup n services with
      | some entry =>
          cases hs : entry.shutdown with
          | some res =>
              cases res with
              | some e =>
                  simp [shutdownHooks, hookPresent, hookErrsOf, hl, hs, ih,
                    List.filter_cons]
              | none =>
                  simp [shutdownHooks, hookPresent, hookErrsOf, hl, hs, ih,
                    List.filter_cons]
          | none =>
              simp [shutdownHooks, hookPresent, hookErrsOf, hl, hs, ih,
                List.filter_cons]
      | none =>
          simp [shutdownHooks, hookPresent, hookErrsOf, hl, ih, List.filter_cons]

theorem closeDbs_spec (ce : String → Option String) :
    ∀ l : List (String × DbServiceFactory),
      closeDbs ce l =
        ((l.filter (fun p => (Prod.snd p).db.isSome)).map Prod.fst,
         l.flatMap (closeErrsOf ce)) := by
  intro l
  induction l with
  | nil => rfl
  | cons p rest ih =>
      obtain ⟨n, f⟩ := p
      cases hdb : f.db with
      | some db =>
          cases hce : ce n with
          | some e => simp [closeDbs, closeErrsOf, hdb, hce, ih, List.filter_cons]
          | none => simp [closeDbs, closeErrsOf, hdb, hce, ih, List.filter_cons]
      | none => simp [closeDbs, closeErrsOf, hdb, ih, List.filter_cons]

theorem shutdown_spec (r : Registry) (ce : String → Option String) :
    r.shutdown ce =
      { hookOrder := (r.order.reverse).filter (hookPresent r.services),
        closedDbs :=
          (r.dbServices.filter (fun p => (Prod.snd p).db.isSome)).map Prod.fst,
        errs := (r.order.reverse).flatMap (hookErrsOf r.services) ++
                r.dbServices.flatMap (closeErrsOf ce) } := by
  simp [Registry.shutdown, shutdownHooks_spec, closeDbs_spec]

theorem aggregate_eq_none_iff (res : ShutdownResult) :
    res.aggregate = none ↔ res.errs = [] := by
  by_cases h : res.errs = [] <;> simp [ShutdownResult.aggregate, h]

theorem regsApply_order (regs : List PlainReg) :
    ∀ r₀ : Registry, (regsApply r₀ regs).order = r₀.order ++ regs.map PlainReg.name := by
  induction regs with
  | nil => intro r₀; simp [regsApply]
  | cons g t ih =>
      intro r₀
      show (regsApply (r₀.register g.name g.inst g.hook) t).order = _
      rw [ih]
      simp [Registry.register]

theorem regsApply_dbServices (regs : List PlainReg) :
    ∀ r₀ : Registry, (regsApply r₀ regs).dbServices = r₀.dbServices := by
  induction regs with
  | nil => intro r₀; rfl
  | cons g t ih =>
      intro r₀
      show (regsApply (r₀.register g.name g.inst g.hook) t).dbServices = _
      rw [ih]
      rfl

theorem regsApply_lookup_of_not_mem (regs : List PlainReg) :
    ∀ (r₀ : Registry) (n : String), n ∉ regs.map PlainReg.name →
      List.lookup n (regsApply r₀ regs).services = List.lookup n r₀.services := by
  induction regs with
  | nil => intro r₀ n _; rfl
  | cons g t ih =>
      intro r₀ n hn
      simp only [List.map_cons, List.mem_cons, not_or] at hn
      show List.lookup n (regsApply (r₀.register g.name g.inst g.hook) t).services = _
      rw [ih _ n hn.2]
      simp [Registry.register, lookup_mapInsert, hn.1]

theorem regsApply_lookup_self (regs : List PlainReg) :
    ∀ (r₀ : Registry) (g : PlainReg), g ∈ regs → (regs.map PlainReg.name).Nodup →
      List.lookup g.name (regsApply r₀ regs).services =
        some { name := g.name, inst := g.inst, shutdown := g.hook } := by
  induction regs with
  | nil =>
      intro r₀ g hg _
      simp at hg
  | cons g₀ t ih =>
      intro r₀ g hg hnd
      simp only [List.map_cons, List.nodup_cons] at hnd
      rcases List.mem_cons.mp hg with h1 | h1
      · subst h1
        show List.lookup g.name (regsApply (r₀.register g.name g.inst g.hook) t).services = _
        rw [regsApply_lookup_of_not_mem t _ g.name hnd.1]
        simp [Registry.register, lookup_mapInsert]
      · exact ih (r₀.register g₀.name g₀.inst g₀.hook) g h1 hnd.2

theorem filter_hookPresent_map (services : List (String × ServiceEntry)) :
    ∀ regs : List PlainReg,
      (∀ g ∈ regs, hookPresent services g.name = g.hook.isSome) →
      (regs.map PlainReg.name).filter (hookPresent services) =
        (regs.filter (fun g => g.hook.isSome)).map PlainReg.name := by
  intro regs
  induction regs with
  | nil => intro _; rfl
  | cons g t ih =>
      intro h
      have hg := h g (List.mem_cons_self _ _)
      have ht := ih (fun q hq => h q (List.mem_cons_of_mem _ hq))
      cases hh : g.hook.isSome with
      | true => simp [List.filter_cons, hg, hh, ht]
      | false => simp [List.filter_cons, hg, hh, ht]

/-- C3: for every sequence of plain registrations with distinct names (atop
a registry with an empty order list), `Shutdown` invokes the present hooks
in exact reverse registration order without aborting on failures, closes
every DB factory pool that was materialized regardless of hook failures,
and returns `nil` exactly when nothing failed — otherwise one aggregate
error carrying every collected hook failure and every pool-close failure. -/
theorem c3_shutdown_reverse_order_and_aggregation (r₀ : Registry)
    (regs : List PlainReg) (ce : String → Option String)
    (h0o : r₀.order = [])
    (hnd : (regs.map PlainReg.name).Nodup) :
    ((regsApply r₀ regs).shutdown ce).hookOrder =
        ((regs.filter (fun g => g.hook.isSome)).map PlainReg.name).reverse ∧
    ((regsApply r₀ regs).shutdown ce).closedDbs =
        (r₀.dbServices.filter (fun p => (Prod.snd p).db.isSome)).map Prod.fst ∧
    (((regsApply r₀ regs).shutdown ce).aggregate = none ↔
        ((regsApply r₀ regs).shutdown ce).errs = []) ∧
    (∀ g ∈ regs, ∀ e, g.hook = some (some e) →
        ∃ l, ((regsApply r₀ regs).shutdown ce).aggregate = some l ∧
          hookErrMsg g.name e ∈ l) ∧
    (∀ p ∈ r₀.dbServices, ∀ e, (Prod.snd p).db.isSome → ce (Prod.fst p) = some e →
        ∃ l, ((regsApply r₀ regs).shutdown ce).aggregate = some l ∧
          closeErrMsg (Prod.fst p) e ∈ l) := by
  have hord : (regsApply r₀ regs).order = regs.map PlainReg.name := by
    rw [regsApply_order, h0o]
    rfl
  have hdbs : (regsApply r₀ regs).dbServices = r₀.dbServices :=
    regsApply_dbServices regs r₀
  have hpoint : ∀ g ∈ regs,
      hookPresent (regsApply r₀ regs).services g.name = g.hook.isSome := by
    intro g hg
    rw [hookPresent, regsApply_lookup_self regs r₀ g hg hnd]
  have hspec := shutdown_spec (regsApply r₀ regs) ce
  have herrs : ((regsApply r₀ regs).shutdown ce).errs =
      ((regsApply r₀ regs).order.reverse).flatMap
          (hookErrsOf (regsApply r₀ regs).services) ++
        (regsApply r₀ regs).dbServices.flatMap (closeErrsOf ce) := by
    rw [hspec]
  have hmemErrs : ∀ x ∈ ((regsApply r₀ regs).shutdown ce).errs,
      ∃ l, ((regsApply r₀ regs).shutdown ce).aggregate = some l ∧ x ∈ l := by
    intro x hx
    refine ⟨((regsApply r₀ regs).shutdown ce).errs, ?_, hx⟩
    simp [ShutdownResult.aggregate, List.ne_nil_of_mem hx]
  refine ⟨?_, ?_, aggregate_eq_none_iff _, ?_, ?_⟩
  · rw [hspec]
    show ((regsApply r₀ regs).order.reverse).filter
        (hookPresent (regsApply r₀ regs).services) = _
    rw [hord, List.filter_reverse, filter_hookPresent_map _ regs hpoint]
  · rw [hspec]
    show ((regsApply r₀ regs).dbServices.filter
        (fun p => (Prod.snd p).db.isSome)).map Prod.fst = _
    rw [hdbs]
  · intro g hg e he
    apply hmemErrs
    rw [herrs]
    apply List.mem_append_left
    refine List.mem_flatMap.mpr ⟨g.name, ?_, ?_⟩
    · rw [hord, List.mem_reverse]
      exact List.mem_map_of_mem PlainReg.name hg
    · rw [hookErrsOf, regsApply_lookup_self regs r₀ g hg hnd]
      simp [he]
  · intro p hp e hdb hce
    apply hmemErrs
    rw [herrs]
    apply List.mem_append_right
    refine List.mem_flatMap.mpr ⟨p, by rw [hdbs]; exact hp, ?_⟩
    obtain ⟨v, hv⟩ := Option.isSome_iff_exists.mp hdb
    simp [closeErrsOf, hv, hce]

/-- C3 (witness): the spec's example — register A, B, C (each with a hook
that succeeds): hooks run in order C, B, A and `Shutdown` returns `nil`. -/
theorem c3_witness :
    ((regsApply newRegistry
        [{ name := "A", inst := 1, hook := some none },
         { name := "B", inst := 2, hook := some none },
         { name := "C", inst := 3, hook := some none }]).shutdown
        (fun _ => none)).hookOrder = ["C", "B", "A"] ∧
    ((regsApply newRegistry
        [{ name := "A", inst := 1, hook := some none },
         { name := "B", inst := 2, hook := some none },
         { name := "C", inst := 3, hook := some none }]).shutdown
        (fun _ => none)).aggregate = none := by
  have h := c3_shutdown_reverse_order_and_aggregation newRegistry
      [{ name := "A", inst := 1, hook := some none },
       { name := "B", inst := 2, hook := some none },
       { name := "C", inst := 3, hook := some none }]
      (fun _ => none) rfl (by decide)
  refine ⟨?_, ?_⟩
  · rw [h.1]
    rfl
  · exact h.2.2.1.mpr rfl
